import Mathlib

/-!
Verification development for the `blobo` object store.

The Go sources are shallowly embedded: the filesystem under a storage node's
data directory becomes an association list from file name to byte content,
pure functions of the handlers become Lean functions, and outbound HTTP
traffic of the API tier becomes a function from request URL to an optional
response (`none` models a local network/transport failure).
-/

set_option autoImplicit false

/-- Byte strings are lists of naturals (one per byte). -/
abbrev Bytes := List Nat

/-- The data directory of a storage node: file name to file content.
`FilesystemStorage.Setup` chroots into this directory; afterwards every path
the node touches is a bare file name inside it. -/
abbrev Fs := List (String × Bytes)

/-- A metadata mapping (Go `map[string]string`), as an association list. -/
abbrev Meta := List (String × String)

/-- The bytes of an ASCII string (Go `[]byte(s)`). -/
def strBytes (s : String) : Bytes :=
  s.data.map Char.toNat

/-- Embeds `ioutil.ReadFile`: look a file up by name; `none` when the file
does not exist (the model filesystem has no distinct read-error state, so
`os.Stat` reporting absence and `ReadFile` failing coincide here). -/
def readFile : Fs → String → Option Bytes
  | [], _ => none
  | (k, v) :: rest, name => if name = k then some v else readFile rest name

/-- Embeds `ioutil.WriteFile`: create or overwrite a file in place. -/
def writeFile : Fs → String → Bytes → Fs
  | [], name, data => [(name, data)]
  | (k, v) :: rest, name, data =>
      if k = name then (name, data) :: rest else (k, v) :: writeFile rest name data

/-- Embeds Go `strings.HasSuffix`. -/
def hasSuffix (s suffix : String) : Bool :=
  suffix.data.isSuffixOf s.data

/-- The storage node's id check, embedding the compiled regular expression
match of the handlers in `cmd_api_server.go`:
`regexp.MustCompile("^([a-z0-9]+)$").MatchString id`. -/
def validId (s : String) : Bool :=
  !s.data.isEmpty && s.data.all (fun c => ('a' ≤ c && c ≤ 'z') || ('0' ≤ c && c ≤ '9'))

/-! ### The metadata sidecar encoding

`FilesystemStorage.Get` decodes the sidecar file `<id>.json` with
`json.Unmarshal` into a `map[string]string`.  No function in the sources ever
serializes a metadata mapping into a sidecar, so the JSON wire format itself
is inert here; it is embedded as a concrete length-prefixed encoding
(`encodeMeta`) together with its decoder (`decodeMeta`), whose round-trip
property is the only fact about the format the code depends on. -/

/-- Serialize one string with a length prefix. -/
def encStr (s : String) : Bytes :=
  s.length :: s.data.map Char.toNat

/-- Serialize the key/value pairs of a metadata mapping. -/
def encPairs : Meta → Bytes
  | [] => []
  | (k, v) :: rest => encStr k ++ (encStr v ++ encPairs rest)

/-- Serialize a metadata mapping: the stand-in for `json.Marshal` of a
`map[string]string`. -/
def encodeMeta (m : Meta) : Bytes :=
  m.length :: encPairs m

/-- Deserialize one length-prefixed string, returning it with the remaining
input. -/
def decStr : Bytes → Option (String × Bytes)
  | [] => none
  | n :: rest =>
      if n ≤ rest.length then
        some (String.mk ((rest.take n).map Char.ofNat), rest.drop n)
      else none

/-- Deserialize the given number of key/value pairs. -/
def decPairs : Nat → Bytes → Option Meta
  | 0, [] => some []
  | 0, _ :: _ => none
  | k + 1, bs => do
      let (key, bs1) ← decStr bs
      let (val, bs2) ← decStr bs1
      let rest ← decPairs k bs2
      pure ((key, val) :: rest)

/-- Deserialize a metadata mapping: the stand-in for `json.Unmarshal` into a
`map[string]string`. -/
def decodeMeta : Bytes → Option Meta
  | [] => none
  | n :: bs => decPairs n bs

/-! ### FilesystemStorage (`storage-api.go`) -/

/-- Embeds `FilesystemStorage.Get`: absent when the content file is missing
(`os.Stat` / `ReadFile` failing); otherwise the content together with the
decoded sidecar, where the sidecar being present but undecodable yields the
empty mapping (the source ignores the `json.Unmarshal` error after
`meta = make(map[string]string)`), and a missing sidecar yields no mapping
at all (`meta` stays `nil`). -/
def FilesystemStorage.Get (fs : Fs) (id : String) : Option (Bytes × Option Meta) :=
  match readFile fs id with
  | none => none
  | some x => some (x, (readFile fs (id ++ ".json")).map (fun md => (decodeMeta md).getD []))

/-- Embeds `FilesystemStorage.Store`: write the content file for the id.  The
source returns `false` exactly when `ioutil.WriteFile` fails; the model
filesystem has no write errors, so the flag is always `true`. -/
def FilesystemStorage.Store (fs : Fs) (id : String) (data : Bytes) : Fs × Bool :=
  (writeFile fs id data, true)

/-- Embeds `FilesystemStorage.Exists`: `os.Stat` on the id's file. -/
def FilesystemStorage.Exists (fs : Fs) (id : String) : Bool :=
  (readFile fs id).isSome

/-- Embeds `FilesystemStorage.Existing`: read the data directory and keep
every file name without the `.json` suffix. -/
def FilesystemStorage.Existing (fs : Fs) : List String :=
  (fs.map Prod.fst).filter (fun n => !hasSuffix n ".json")

/-! ### Storage-node HTTP handlers (`cmd_api_server.go`, blob-server part) -/

/-- The HTTP methods the handlers distinguish. -/
inductive Method
  | GET
  | HEAD
deriving DecidableEq, Repr

/-- One call from a handler into the storage layer; handler embeddings return
the trace of such calls so that "no filesystem access" is a statement about
the program, not about the model. -/
inductive StorageOp
  | get (id : String)
  | store (id : String)
  | exist (id : String)
deriving DecidableEq, Repr

/-- An HTTP response of a storage node. -/
structure NodeResp where
  status : Nat
  headers : List (String × String)
  body : Bytes
deriving DecidableEq, Repr

/-- Embeds Go `http.Error(res, msg, status)`: status plus the message and a
trailing newline as body. -/
def errResp (status : Nat) (msg : String) : NodeResp :=
  ⟨status, [], strBytes (msg ++ "\n")⟩

/-- Embeds `res.Header().Set(k, v)`: replace any value held for the key and
record the new one. -/
def headerSet (hdrs : List (String × String)) (k v : String) : List (String × String) :=
  hdrs.filter (fun p => p.1 != k) ++ [(k, v)]

/-- Embeds the metadata loop of `GetHandler`: every key/value pair is set as a
response header, and the reserved key `X-Mime-Type` is additionally rewritten
to `Content-Type` (the source sets `X-Mime-Type` itself first, then reassigns
`k` and sets `Content-Type` with the same value).  A Go map iterates in an
unspecified order; the embedding iterates the association list in order. -/
def applyMetaHeaders : Meta → List (String × String) → List (String × String)
  | [], hdrs => hdrs
  | (k, v) :: rest, hdrs =>
      if k = "X-Mime-Type" then
        applyMetaHeaders rest (headerSet (headerSet hdrs k v) "Content-Type" v)
      else
        applyMetaHeaders rest (headerSet hdrs k v)

/-- Embeds `GetHandler` (serving `GET /blob/{id}` and `HEAD /blob/{id}`),
paired with the trace of storage-layer calls it makes.  Malformed ids are
rejected with status 500 (`"alphanumeric IDs only"`) before any storage call;
`HEAD` only probes existence; `GET` answers 404 when the blob is absent and
otherwise streams the content with the metadata emitted as headers. -/
def GetHandler (fs : Fs) (method : Method) (id : String) : NodeResp × List StorageOp :=
  if !validId id then
    (errResp 500 "alphanumeric IDs only", [])
  else if method = Method.HEAD then
    (⟨if FilesystemStorage.Exists fs id then 200 else 404, [("Connection", "close")], []⟩,
      [StorageOp.exist id])
  else
    match FilesystemStorage.Get fs id with
    | none => (⟨404, [], []⟩, [StorageOp.get id])
    | some (x, metaOpt) =>
        (⟨200, (match metaOpt with | none => [] | some m => applyMetaHeaders m []), x⟩,
          [StorageOp.get id])

/-- The success confirmation of `UploadHandler`:
`fmt.Sprintf("\x7b\"id\":\"%s\",\"status\":\"OK\",\"size\":%d\x7d", id, len content)`. -/
def uploadOKBody (id : String) (size : Nat) : String :=
  "\x7b\"id\":\"" ++ id ++ "\",\"status\":\"OK\",\"size\":" ++ toString size ++ "\x7d"

/-- Embeds `UploadHandler` (`POST /blob/{id}`), returning the response, the
filesystem after the call, and the trace of storage-layer calls.  Malformed
ids are rejected with status 500 before any storage call (the body-read error
branch of the source cannot fire in the model, where the request body is given
as bytes); `Store` failing yields status 500; otherwise the JSON confirmation
is written. -/
def UploadHandler (fs : Fs) (id : String) (body : Bytes) : NodeResp × Fs × List StorageOp :=
  if !validId id then
    (errResp 500 "alphanumeric IDs only", fs, [])
  else
    match FilesystemStorage.Store fs id body with
    | (fs2, ok) =>
        if !ok then
          (errResp 500 "failed to write to storage", fs2, [StorageOp.store id])
        else
          (⟨200, [], strBytes (uploadOKBody id body.length)⟩, fs2, [StorageOp.store id])

/-! ### The API tier (`cmd_api_server.go`, api-server part) -/

/-- A blob-server entry of the topology registry (`libconfig.Servers()`
yields entries with a `Group` and a `Location`). -/
structure Server where
  group : String
  location : String
deriving DecidableEq, Repr

/-- The network seen from the API server: a request URL is answered either by
`none` (a local network/transport failure, `client.Do` / `http.Get` returning
an error) or by `some (status, body)` — the HTTP status code and the bytes
`ioutil.ReadAll` yields from the response body (never Go-`nil`, since
`ReadAll` allocates its buffer before reading). -/
abbrev Net := String → Option (Nat × Bytes)

/-- Modelled from the spec: `libconfig.OrderedServers` lives in the
`libconfig` package, which is not among the sources; its call sites in
`APIUploadHandler` and `APIDownloadHandler` pass it no argument, so it
"returns the known blob-servers in a suitable order" as a function of the
registry alone.  It is modelled as the registry in registration order (the
spec's degenerate single-group case). -/
def OrderedServers (reg : List Server) : List Server :=
  reg

/-- The order of blob-servers the download handler tries for a given raw
identifier: the identifier is not an input of the order computation in the
source (`OrderedServers()` is called without it). -/
def serverOrderForDownload (reg : List Server) (_rawId : String) : List Server :=
  OrderedServers reg

/-- The order of blob-servers the upload handler tries. -/
def serverOrderForUpload (reg : List Server) : List Server :=
  OrderedServers reg

/-- The URL `APIUploadHandler` posts to:
`fmt.Sprintf("%s%s%x", s.Location, "/blob/", hash)`; the hex digest is the
`hash` string. -/
def uploadURL (s : Server) (hash : String) : String :=
  s.location ++ "/blob/" ++ hash

/-- The URL `APIDownloadHandler` fetches:
`fmt.Sprintf("%s%s%s", s.Location, "/blob/", id)`. -/
def fetchURL (s : Server) (id : String) : String :=
  s.location ++ "/blob/" ++ id

/-- Embeds the scan of Go `filepath.Ext` over the reversed characters:
walking back from the end, stop at a path separator; at the first `.` the
extension (still reversed) is complete. -/
def extRev : List Char → Option (List Char)
  | [] => none
  | c :: rest =>
      if c = '/' then none
      else if c = '.' then some [c]
      else (extRev rest).map (fun e => c :: e)

/-- Embeds Go `filepath.Ext`: the suffix beginning at the final dot of the
final path element, or the empty string when there is none. -/
def filepathExt (s : String) : String :=
  match extRev s.data.reverse with
  | none => ""
  | some e => String.mk e.reverse

/-- Embeds the identifier normalization of `APIDownloadHandler`:
`extension := filepath.Ext(id); id = id[0 : len(id)-len(extension)]`. -/
def stripExt (s : String) : String :=
  String.mk (s.data.take (s.data.length - (filepathExt s).length))

/-- Outcome of `APIUploadHandler`. -/
inductive UpOut
  /-- Some blob-server answered; its response body is relayed verbatim. -/
  | relayed (body : Bytes)
  /-- Every blob-server attempt failed. -/
  | exhausted
deriving DecidableEq, Repr

/-- The generic failure body written on exhaustion:
`"\x7b\"error\":\"upload failed\"\x7d"`. -/
def uploadFailBody : String :=
  "\x7b\"error\":\"upload failed\"\x7d"

/-- Status code and body the caller of `/upload` receives: a relayed body is
written with `fmt.Fprintf` and no explicit status, hence 200; exhaustion
writes status 500 and the generic JSON failure body. -/
def uploadResponse : UpOut → Nat × Bytes
  | UpOut.relayed b => (200, b)
  | UpOut.exhausted => (500, strBytes uploadFailBody)

/-- Embeds the retry loop of `APIUploadHandler`: a transport error
(`client.Do` failing) advances to the next candidate; any received response
has its body read and — the `response != nil` test never failing — relayed
immediately, whatever its status code (the source never inspects
`r.StatusCode`). -/
def uploadLoop (net : Net) (hash : String) : List Server → UpOut
  | [] => UpOut.exhausted
  | s :: rest =>
      match net (uploadURL s hash) with
      | none => uploadLoop net hash rest
      | some r => UpOut.relayed r.2

/-- Embeds `APIUploadHandler`, with the SHA1 hex digest of the request body
abstracted as the `hash` argument (the loop depends on it only through the
request URLs). -/
def APIUploadHandler (net : Net) (reg : List Server) (hash : String) : UpOut :=
  uploadLoop net hash (serverOrderForUpload reg)

/-- Outcome of `APIDownloadHandler`. -/
inductive DownOut
  /-- A candidate returned 200; its body is streamed back (GET). -/
  | bodyOut (body : Bytes)
  /-- A candidate returned 200; existence acknowledged with 200, no body (HEAD). -/
  | headOK
  /-- No candidate succeeded: 404. -/
  | notFound
deriving DecidableEq, Repr

/-- Embeds the retry loop of `APIDownloadHandler`: a transport error or a
status other than 200 advances to the next candidate; the first 200 response
has its body read (never Go-`nil`) and, for HEAD, is acknowledged with 200
and no body, else the body is streamed back; an empty remainder answers 404. -/
def downloadLoop (net : Net) (method : Method) (id : String) : List Server → DownOut
  | [] => DownOut.notFound
  | s :: rest =>
      match net (fetchURL s id) with
      | none => downloadLoop net method id rest
      | some (st, body) =>
          if st ≠ 200 then downloadLoop net method id rest
          else if method = Method.HEAD then DownOut.headOK
          else DownOut.bodyOut body

/-- Embeds `APIDownloadHandler` for `GET`/`HEAD /fetch/{id}`: the raw
identifier is stripped of any trailing extension, then the candidates are
tried in order. -/
def APIDownloadHandler (net : Net) (reg : List Server) (method : Method)
    (rawId : String) : DownOut :=
  downloadLoop net method (stripExt rawId) (serverOrderForDownload reg rawId)

/-! ### Claim-side and spec-side comparison definitions -/

/-- The upload retry policy as claim C1 states it (for comparison with the
embedded `uploadLoop`): a transport failure or an unsuccessful (non-2xx)
response advances to the next candidate, the first successful acknowledgment
is relayed, and exhaustion is reached only when every candidate failed. -/
def uploadLoopClaim (net : Net) (hash : String) : List Server → UpOut
  | [] => UpOut.exhausted
  | s :: rest =>
      match net (uploadURL s hash) with
      | none => uploadLoopClaim net hash rest
      | some (st, body) =>
          if 200 ≤ st && st < 300 then UpOut.relayed body
          else uploadLoopClaim net hash rest

/-- First successful download among a sequence of per-candidate results:
skip transport failures and non-200 responses, keep the first 200 body. -/
def firstOk (rs : List (Option (Nat × Bytes))) : Option Bytes :=
  (((rs.filterMap id).filter (fun r => r.1 == 200)).head?).map (fun r => r.2)

/-- First response of any kind among a sequence of per-candidate results. -/
def firstResponse (rs : List (Option (Nat × Bytes))) : Option (Nat × Bytes) :=
  (rs.filterMap id).head?

/-- Group names of a registry in first-appearance order. -/
def groupsOf (reg : List Server) : List String :=
  reg.foldl (fun gs s => if s.group ∈ gs then gs else gs ++ [s.group]) []

/-- Modelled from the spec: the "numeric reduction of the content/identifier
hash" used by §4.2's `orderedSearchPath` to pick the home group, taken here
as the sum of the key's character codes. -/
def keyReduction (key : String) : Nat :=
  key.data.foldl (fun a c => a + c.toNat) 0

/-- Modelled from the spec: §4.2 `orderedSearchPath(key, registry)` — the
routing engine absent from the sources.  The home group is the key's numeric
reduction modulo the group count; its endpoints are emitted first, then every
other group's endpoints in enumeration order. -/
def orderedSearchPathSpec (key : String) (reg : List Server) : List Server :=
  match groupsOf reg with
  | [] => []
  | g0 :: gs =>
      let all := g0 :: gs
      let home := all.getD (keyReduction key % all.length) g0
      reg.filter (fun s => s.group = home) ++ reg.filter (fun s => s.group ≠ home)

/-! ### Concrete inputs used in the closed theorems -/

/-- A registry of two blob-servers in the default group. -/
def regC1 : List Server :=
  [⟨"default", "http://n1"⟩, ⟨"default", "http://n2"⟩]

/-- A network where the first blob-server answers the upload with an
unsuccessful HTTP 500 storage error and every other endpoint answers with the
successful JSON acknowledgment. -/
def netC1 : Net := fun url =>
  if url = "http://n1/blob/ff" then some (500, strBytes "failed to write to storage\n")
  else some (200, strBytes "\x7b\"id\":\"ff\",\"status\":\"OK\",\"size\":3\x7d")

/-- A registry with two groups of one blob-server each. -/
def regC8 : List Server :=
  [⟨"g0", "http://n0"⟩, ⟨"g1", "http://n1"⟩]

/-! ### Facts about the filesystem model -/

theorem readFile_writeFile_same (fs : Fs) (name : String) (data : Bytes) :
    readFile (writeFile fs name data) name = some data := by
  induction fs with
  | nil => simp [writeFile, readFile]
  | cons kv rest ih =>
      obtain ⟨k, v⟩ := kv
      by_cases h : k = name
      · simp [writeFile, readFile, h]
      · simp [writeFile, readFile, h, Ne.symm h, ih]

theorem readFile_writeFile_other (fs : Fs) (name other : String) (data : Bytes)
    (h : other ≠ name) :
    readFile (writeFile fs name data) other = readFile fs other := by
  induction fs with
  | nil => simp [writeFile, readFile, h]
  | cons kv rest ih =>
      obtain ⟨k, v⟩ := kv
      by_cases hk : k = name
      · subst hk
        simp [writeFile, readFile, h]
      · by_cases ho : other = k
        · simp [writeFile, readFile, hk, ho]
        · simp [writeFile, readFile, hk, ho, ih]

theorem readFile_isSome_iff (fs : Fs) (id : String) :
    (readFile fs id).isSome = true ↔ id ∈ fs.map Prod.fst := by
  induction fs with
  | nil => simp [readFile]
  | cons kv rest ih =>
      obtain ⟨k, v⟩ := kv
      by_cases h : id = k
      · simp [readFile, h]
      · simp [readFile, h, ih]

theorem decStr_encStr (s : String) (rest : Bytes) :
    decStr (encStr s ++ rest) = some (s, rest) := by
  obtain ⟨cs⟩ := s
  have hlen : (cs.map Char.toNat).length = String.length ⟨cs⟩ := by
    simp [String.length]
  simp [encStr, decStr, String.length, List.take_left' hlen, List.drop_left' hlen,
    List.map_map, Function.comp_def, Char.ofNat_toNat]

theorem decPairs_encPairs (m : Meta) :
    decPairs m.length (encPairs m) = some m := by
  induction m with
  | nil => simp [decPairs, encPairs]
  | cons kv rest ih =>
      obtain ⟨k, v⟩ := kv
      simp [decPairs, encPairs, List.append_assoc, decStr_encStr, ih]

theorem decodeMeta_encodeMeta (m : Meta) :
    decodeMeta (encodeMeta m) = some m := by
  simp [decodeMeta, encodeMeta, decPairs_encPairs]

/-! ### Claims about the API tier -/

/-- C1: the upload handler is claimed to skip a candidate both on transport
failure and on an unsuccessful response, relaying only a successful write
acknowledgment.  Evaluating the embedded handler at the failing input: the
first blob-server answers the POST with an unsuccessful HTTP 500 storage
error and the second would answer successfully, yet `APIUploadHandler` relays
the error body of the first server (its loop never inspects `r.StatusCode`),
while the claimed policy (`uploadLoopClaim`) would have continued to the
second server and relayed its acknowledgment. -/
theorem c1_code_bug :
    APIUploadHandler netC1 regC1 "ff"
        = UpOut.relayed (strBytes "failed to write to storage\n")
    ∧ uploadLoopClaim netC1 "ff" (serverOrderForUpload regC1)
        = UpOut.relayed (strBytes "\x7b\"id\":\"ff\",\"status\":\"OK\",\"size\":3\x7d") := by
  decide

theorem downloadLoop_firstOk (net : Net) (method : Method) (id : String) (L : List Server) :
    downloadLoop net method id L
      = match firstOk (L.map (fun s => net (fetchURL s id))) with
        | some body => if method = Method.HEAD then DownOut.headOK else DownOut.bodyOut body
        | none => DownOut.notFound := by
  induction L with
  | nil => simp [downloadLoop, firstOk]
  | cons s rest ih =>
      cases hnet : net (fetchURL s id) with
      | none => simpa [downloadLoop, hnet, firstOk] using ih
      | some r =>
          obtain ⟨st, body⟩ := r
          by_cases hst : st = 200
          · subst hst
            simp [downloadLoop, hnet, firstOk]
          · simpa [downloadLoop, hnet, firstOk, hst] using ih

/-- C2: for both GET and HEAD, the download handler skips transport errors
and non-200 responses alike, answers from the first candidate that returns a
successful body (streaming it for GET, acknowledging with 200 and no body for
HEAD), and answers 404 — not a connectivity error — when no candidate
succeeds. -/
theorem c2_download (net : Net) (reg : List Server) (method : Method) (rawId : String) :
    APIDownloadHandler net reg method rawId
      = match firstOk ((serverOrderForDownload reg rawId).map
            (fun s => net (fetchURL s (stripExt rawId)))) with
        | some body => if method = Method.HEAD then DownOut.headOK else DownOut.bodyOut body
        | none => DownOut.notFound :=
  downloadLoop_firstOk net method (stripExt rawId) (serverOrderForDownload reg rawId)

/-! ### Claims about the storage node -/

/-- C3: for every id that fails the `^[a-z0-9]+$` check, the get, exists
(HEAD) and store handlers of the storage node reject the request with an
empty storage-operation trace — no call into the storage layer, hence no
filesystem read or write — and the filesystem is unchanged. -/
theorem c3_invalid_id_no_storage_access (fs : Fs) (method : Method) (id : String)
    (body : Bytes) (h : validId id = false) :
    (GetHandler fs method id).2 = []
    ∧ (UploadHandler fs id body).2.2 = []
    ∧ (UploadHandler fs id body).2.1 = fs := by
  refine ⟨?_, ?_, ?_⟩ <;> simp [GetHandler, UploadHandler, h]

theorem c3_witness :
    validId "../etc" = false
    ∧ (GetHandler [("a", [1])] Method.GET "../etc").2 = []
    ∧ (UploadHandler [("a", [1])] "../etc" [7]).2.2 = []
    ∧ (UploadHandler [("a", [1])] "../etc" [7]).2.1 = [("a", [1])] :=
  ⟨by decide, c3_invalid_id_no_storage_access [("a", [1])] Method.GET "../etc" [7] (by decide)⟩

/-- C4: the claim says a malformed id is surfaced as a client-error (4xx)
response; at the concrete malformed id `"NOTvalid"` the storage node's get
handler answers with status 500, which is not in the 4xx class. -/
theorem c4_counterexample :
    (GetHandler [] Method.GET "NOTvalid").1.status = 500
    ∧ ¬(400 ≤ (GetHandler [] Method.GET "NOTvalid").1.status
          ∧ (GetHandler [] Method.GET "NOTvalid").1.status < 500) := by
  decide

/-- C4 (amended): a malformed id is rejected by the get, exists and store
handlers with an HTTP 500 server-error response. -/
theorem c4_amended (fs : Fs) (method : Method) (id : String) (body : Bytes)
    (h : validId id = false) :
    (GetHandler fs method id).1.status = 500
    ∧ (UploadHandler fs id body).1.status = 500 := by
  constructor <;> simp [GetHandler, UploadHandler, h, errResp]

theorem c4_witness :
    validId "NOTvalid" = false
    ∧ (GetHandler [] Method.HEAD "NOTvalid").1.status = 500
    ∧ (UploadHandler [] "NOTvalid" []).1.status = 500 :=
  ⟨by decide, c4_amended [] Method.HEAD "NOTvalid" [] (by decide)⟩

/-- C9: `FilesystemStorage.Get` returns absent whenever the content file for
the id is missing, even when a metadata sidecar `<id>.json` exists: metadata
is never returned without its blob content. -/
theorem c9_absent_content (fs : Fs) (id : String) (h : readFile fs id = none) :
    FilesystemStorage.Get fs id = none := by
  unfold FilesystemStorage.Get
  rw [h]

theorem c9_witness :
    readFile [("a.json", [1, 2])] "a" = none
    ∧ FilesystemStorage.Get [("a.json", [1, 2])] "a" = none :=
  ⟨by decide, c9_absent_content [("a.json", [1, 2])] "a" (by decide)⟩

theorem append_json_ne (id : String) : id ++ ".json" ≠ id := by
  intro h
  have h2 := congrArg String.length h
  rw [String.length_append] at h2
  have h5 : (".json" : String).length = 5 := by decide
  rw [h5] at h2
  omega

/-- C5: the claim says storing a payload together with a supplied metadata
mapping and reading it back returns that mapping.  `FilesystemStorage.Store`
has no metadata input and writes no sidecar: at the concrete input — empty
data directory, id `"a"`, payload `[1, 2]`, intended mapping
`[("k", "v")]` — the read-back yields the byte-identical content but no
metadata at all. -/
theorem c5_counterexample :
    FilesystemStorage.Get (FilesystemStorage.Store [] "a" [1, 2]).1 "a" = some ([1, 2], none)
    ∧ FilesystemStorage.Get (FilesystemStorage.Store [] "a" [1, 2]).1 "a"
        ≠ some ([1, 2], some [("k", "v")]) := by
  decide

/-- C5 (amended): `Store` accepts no metadata and writes none; the metadata
`Get` returns comes only from a pre-existing sidecar `<id>.json`.  For every
valid id, if the sidecar holds the encoding of mapping `m`, then store
followed by get returns the byte-identical content together with `m`; the
sidecar is untouched by the store. -/
theorem c5_amended (fs : Fs) (id : String) (data : Bytes) (m : Meta)
    (_hid : validId id = true)
    (hside : readFile fs (id ++ ".json") = some (encodeMeta m)) :
    FilesystemStorage.Get (FilesystemStorage.Store fs id data).1 id = some (data, some m) := by
  unfold FilesystemStorage.Store FilesystemStorage.Get
  rw [readFile_writeFile_same,
    readFile_writeFile_other fs id (id ++ ".json") data (append_json_ne id), hside]
  simp [decodeMeta_encodeMeta]

theorem c5_witness :
    validId "a" = true
    ∧ readFile [("a.json", encodeMeta [("k", "v")])] ("a" ++ ".json")
        = some (encodeMeta [("k", "v")])
    ∧ FilesystemStorage.Get
        (FilesystemStorage.Store [("a.json", encodeMeta [("k", "v")])] "a" [9]).1 "a"
      = some ([9], some [("k", "v")]) :=
  ⟨by decide, by decide,
    c5_amended [("a.json", encodeMeta [("k", "v")])] "a" [9] [("k", "v")]
      (by decide) (by decide)⟩

theorem validId_not_json (id : String) (h : validId id = true) :
    hasSuffix id ".json" = false := by
  unfold hasSuffix
  by_contra hcon
  rw [Bool.not_eq_false, List.isSuffixOf_iff_suffix] at hcon
  have hdot : '.' ∈ id.data := hcon.subset (by decide)
  unfold validId at h
  rw [Bool.and_eq_true] at h
  have := List.all_eq_true.mp h.2 '.' hdot
  exact absurd this (by decide)

/-- C6: the listing of a storage node enumerates exactly the (valid) ids it
holds — an id appears in `Existing` exactly when its content file exists —
and no metadata sidecar record (`.json` suffix) ever appears in the
listing. -/
theorem c6_existing (fs : Fs) (id : String) (h : validId id = true) :
    (id ∈ FilesystemStorage.Existing fs ↔ FilesystemStorage.Exists fs id = true)
    ∧ ∀ n ∈ FilesystemStorage.Existing fs, hasSuffix n ".json" = false := by
  constructor
  · rw [show FilesystemStorage.Exists fs id = (readFile fs id).isSome from rfl,
      readFile_isSome_iff]
    unfold FilesystemStorage.Existing
    rw [List.mem_filter]
    simp [validId_not_json id h]
  · intro n hn
    unfold FilesystemStorage.Existing at hn
    rw [List.mem_filter] at hn
    simpa using hn.2

theorem c6_witness :
    validId "x" = true
    ∧ ("x" ∈ FilesystemStorage.Existing [("x", [1]), ("x.json", [2])]
        ↔ FilesystemStorage.Exists [("x", [1]), ("x.json", [2])] "x" = true)
    ∧ ∀ n ∈ FilesystemStorage.Existing [("x", [1]), ("x.json", [2])],
        hasSuffix n ".json" = false :=
  ⟨by decide, (c6_existing [("x", [1]), ("x.json", [2])] "x" (by decide)).1,
    (c6_existing [("x", [1]), ("x.json", [2])] "x" (by decide)).2⟩

theorem headerSet_mem_self (hdrs : List (String × String)) (k v : String) :
    (k, v) ∈ headerSet hdrs k v := by
  simp [headerSet]

theorem headerSet_mem_of_ne (hdrs : List (String × String)) (k v k2 v2 : String)
    (hne : k ≠ k2) (h : (k, v) ∈ hdrs) : (k, v) ∈ headerSet hdrs k2 v2 := by
  unfold headerSet
  refine List.mem_append.mpr (Or.inl ?_)
  rw [List.mem_filter]
  exact ⟨h, by simp [hne]⟩

theorem applyMetaHeaders_preserves (m : Meta) (hdrs : List (String × String)) (v : String)
    (hmem : ("Content-Type", v) ∈ hdrs)
    (hxm : "X-Mime-Type" ∉ m.map Prod.fst)
    (hct : "Content-Type" ∉ m.map Prod.fst) :
    ("Content-Type", v) ∈ applyMetaHeaders m hdrs := by
  induction m generalizing hdrs with
  | nil => simpa [applyMetaHeaders] using hmem
  | cons kv rest ih =>
      obtain ⟨k, w⟩ := kv
      rw [List.map_cons, List.mem_cons, not_or] at hxm hct
      rw [applyMetaHeaders, if_neg (Ne.symm hxm.1)]
      exact ih (headerSet hdrs k w)
        (headerSet_mem_of_ne hdrs "Content-Type" v k w hct.1 hmem) hxm.2 hct.2

theorem applyMetaHeaders_content_type (m : Meta) (hdrs : List (String × String)) (v : String)
    (hmem : ("X-Mime-Type", v) ∈ m)
    (hnd : (m.map Prod.fst).Nodup)
    (hct : "Content-Type" ∉ m.map Prod.fst) :
    ("Content-Type", v) ∈ applyMetaHeaders m hdrs := by
  induction m generalizing hdrs with
  | nil => cases hmem
  | cons kv rest ih =>
      obtain ⟨k, w⟩ := kv
      rw [List.map_cons, List.nodup_cons] at hnd
      rw [List.map_cons, List.mem_cons, not_or] at hct
      rcases List.mem_cons.mp hmem with heq | hrest
      · obtain ⟨hk, hw⟩ := Prod.mk.injEq "X-Mime-Type" v k w ▸ heq
        subst hw
        rw [applyMetaHeaders, if_pos hk.symm]
        refine applyMetaHeaders_preserves rest _ v (headerSet_mem_self _ _ _) ?_ hct.2
        rw [hk]
        exact hnd.1
      · by_cases hk : k = "X-Mime-Type"
        · exfalso
          apply hnd.1
          rw [hk]
          exact List.mem_map.mpr ⟨("X-Mime-Type", v), hrest, rfl⟩
        · rw [applyMetaHeaders, if_neg hk]
          exact ih (headerSet hdrs k w) hrest hnd.2 hct.2

/-- C7: when a stored blob's metadata mapping carries the reserved key
`X-Mime-Type`, a GET of the blob from the storage node emits the stored value
as the `Content-Type` response header (the mapping itself holding no
`Content-Type` key of its own, and — as for any Go map — no duplicate
keys). -/
theorem c7_mime_type (fs : Fs) (id : String) (x : Bytes) (m : Meta) (v : String)
    (hid : validId id = true)
    (hc : readFile fs id = some x)
    (hs : readFile fs (id ++ ".json") = some (encodeMeta m))
    (hmem : ("X-Mime-Type", v) ∈ m)
    (hnd : (m.map Prod.fst).Nodup)
    (hct : "Content-Type" ∉ m.map Prod.fst) :
    ("Content-Type", v) ∈ (GetHandler fs Method.GET id).1.headers := by
  have hget : FilesystemStorage.Get fs id = some (x, some m) := by
    unfold FilesystemStorage.Get
    rw [hc, hs]
    simp [decodeMeta_encodeMeta]
  simp only [GetHandler, hid, Bool.not_true, Bool.false_eq_true, if_false,
    reduceCtorEq, if_neg, hget]
  exact applyMetaHeaders_content_type m [] v hmem hnd hct

theorem c7_witness :
    validId "b" = true
    ∧ readFile [("b", [1]), ("b.json", encodeMeta [("X-Mime-Type", "t")])] "b" = some [1]
    ∧ readFile [("b", [1]), ("b.json", encodeMeta [("X-Mime-Type", "t")])] ("b" ++ ".json")
        = some (encodeMeta [("X-Mime-Type", "t")])
    ∧ ("Content-Type", "t")
        ∈ (GetHandler [("b", [1]), ("b.json", encodeMeta [("X-Mime-Type", "t")])]
            Method.GET "b").1.headers :=
  ⟨by decide, by decide, by decide,
    c7_mime_type [("b", [1]), ("b.json", encodeMeta [("X-Mime-Type", "t")])] "b" [1]
      [("X-Mime-Type", "t")] "t" (by decide) (by decide) (by decide) (by decide)
      (by decide) (by decide)⟩

/-- C8: the claim says both the routing-key computation and the per-node
request use the stripped identifier.  The per-node request does, but the
download handler obtains its server order from `OrderedServers()` without
passing any identifier: the order it tries for `"aa"` and `"a"` is the same
term, while a routing-key computation in the spec's sense
(`orderedSearchPathSpec`) distinguishes those two keys on the two-group
registry `regC8`. -/
theorem c8_counterexample :
    serverOrderForDownload regC8 "aa" = serverOrderForDownload regC8 "a"
    ∧ orderedSearchPathSpec "aa" regC8 ≠ orderedSearchPathSpec "a" regC8 := by
  decide

/-- C8 (amended): any trailing filename-style extension is stripped before
lookup and the per-node `/blob/` request uses the stripped identifier
(`abc123.png` resolves as `abc123`); the server order, however, is computed
without reference to the identifier. -/
theorem c8_amended (net : Net) (reg : List Server) (method : Method) :
    stripExt "abc123.png" = "abc123"
    ∧ (∀ rawId, APIDownloadHandler net reg method rawId
        = downloadLoop net method (stripExt rawId) (OrderedServers reg))
    ∧ (∀ id1 id2 : String, serverOrderForDownload reg id1 = serverOrderForDownload reg id2) :=
  ⟨by decide, fun _ => rfl, fun _ _ => rfl⟩

theorem strBytes_append (a b : String) : strBytes (a ++ b) = strBytes a ++ strBytes b := by
  simp [strBytes]

/-- C10: for every valid id, storing the empty payload succeeds —
`Store` returns `true`, the node's POST handler answers 200 with the JSON
confirmation carrying `"size":0`, and the blob then exists. -/
theorem c10_empty_payload (fs : Fs) (id : String) (h : validId id = true) :
    (FilesystemStorage.Store fs id []).2 = true
    ∧ (UploadHandler fs id []).1.status = 200
    ∧ (UploadHandler fs id []).1.body
        = strBytes "\x7b\"id\":\"" ++ strBytes id
            ++ strBytes "\",\"status\":\"OK\",\"size\":0\x7d"
    ∧ FilesystemStorage.Exists (UploadHandler fs id []).2.1 id = true := by
  refine ⟨rfl, ?_, ?_, ?_⟩
  · simp [UploadHandler, h, FilesystemStorage.Store]
  · simp only [UploadHandler, h, Bool.not_true, Bool.false_eq_true, if_false,
      FilesystemStorage.Store, uploadOKBody, List.length_nil, strBytes_append,
      List.append_assoc]
    congr 1
  · simp [UploadHandler, h, FilesystemStorage.Store, FilesystemStorage.Exists,
      readFile_writeFile_same]

theorem c10_witness :
    validId "a" = true
    ∧ (FilesystemStorage.Store [] "a" []).2 = true
    ∧ (UploadHandler [] "a" []).1.status = 200
    ∧ (UploadHandler [] "a" []).1.body
        = strBytes "\x7b\"id\":\"" ++ strBytes "a"
            ++ strBytes "\",\"status\":\"OK\",\"size\":0\x7d"
    ∧ FilesystemStorage.Exists (UploadHandler [] "a" []).2.1 "a" = true :=
  ⟨by decide, (c10_empty_payload [] "a" (by decide)).1, (c10_empty_payload [] "a" (by decide)).2.1,
    (c10_empty_payload [] "a" (by decide)).2.2.1, (c10_empty_payload [] "a" (by decide)).2.2.2⟩
